import Mathlib

/-!
Verification of the Heimer editor/scene subsystem.

Shallow embedding of the code in `src/view/editor_scene.cpp`,
`src/application/application.cpp` and the interface declared in
`src/editor/mediator.hpp`. Geometry (QRectF) is modelled over the
rationals; Qt container iteration is modelled with lists. Definitions
whose implementation lives outside the given sources (the undo/redo
history held by EditorData, the ApplicationService calls made by
Application, MainWindow flags) are modelled from the specification and
marked as such in their doc comments.
-/

/-! ## Geometry: QRectF modelled over ℚ -/

/-- A rectangle, as QRectF: top-left corner `(x, y)` plus `w × h` extents. -/
structure Rect where
  x : ℚ
  y : ℚ
  w : ℚ
  h : ℚ
deriving DecidableEq

/-- QRectF::adjusted(dx1, dy1, dx2, dy2): moves the left/top edge by
`dx1`/`dy1` and the right/bottom edge by `dx2`/`dy2`. -/
def Rect.adjusted (r : Rect) (dx1 dy1 dx2 dy2 : ℚ) : Rect :=
  ⟨r.x + dx1, r.y + dy1, r.w + dx2 - dx1, r.h + dy2 - dy1⟩

/-- QRectF::contains(QRectF): the inner rectangle lies inside the outer
one, edges inclusive. -/
def Rect.containsRect (outer inner : Rect) : Bool :=
  decide (outer.x ≤ inner.x) && decide (outer.y ≤ inner.y)
    && decide (inner.x + inner.w ≤ outer.x + outer.w)
    && decide (inner.y + inner.h ≤ outer.y + outer.h)

/-! ## Scene items

QGraphicsScene items are modelled as a list. An item is a node visual,
an edge visual (carrying the indices of its source and target nodes, as
read through `edge->sourceNode().index()` / `edge->targetNode().index()`),
or some other item (grid lines, text edits, ...). Each item carries its
`sceneBoundingRect` and an optional graphics effect with its enabled flag
(`none` models `item->graphicsEffect() == nullptr`). -/

/-- Discriminates the dynamic type of a scene item; a node visual carries
the index of its model node, an edge visual the indices of its source and
target nodes. -/
inductive SceneItemKind where
  | node : Nat → SceneItemKind
  | edge : Nat → Nat → SceneItemKind
  | other : SceneItemKind
deriving DecidableEq

/-- A QGraphicsItem as seen by EditorScene. -/
structure SceneItem where
  kind : SceneItemKind
  bounds : Rect
  effect : Option Bool
deriving DecidableEq

/-- Test from `dynamic_cast NodeP` in the iteration loops. -/
def SceneItem.isNode (item : SceneItem) : Bool :=
  match item.kind with
  | SceneItemKind.node _ => true
  | _ => false

/-- The state of an EditorScene: its scene rectangle and its items. -/
structure EditorScene where
  sceneRect : Rect
  items : List SceneItem
deriving DecidableEq

/-! ## EditorScene::hasEdge (editor_scene.cpp lines 86-94) -/

/-- EditorScene::hasEdge(node0, node1): scans the items for an edge whose
source node index equals the index of `node0` and whose target node index
equals the index of `node1`. -/
def hasEdge (items : List SceneItem) (node0 node1 : Nat) : Bool :=
  items.any fun item =>
    match item.kind with
    | SceneItemKind.edge s t => s == node0 && t == node1
    | _ => false

/-! ## EditorScene::containsAll and adjustSceneRect (lines 45-75) -/

/-- The constant `marginFactor = .25` in EditorScene::containsAll. -/
def marginFactor : ℚ := 25 / 100

/-- The inner test rectangle of EditorScene::containsAll: the scene
rectangle inset on each side by `marginFactor` of its width/height. -/
def testRect (r : Rect) : Rect :=
  r.adjusted (r.w * marginFactor) (r.h * marginFactor)
    (-(r.w * marginFactor)) (-(r.h * marginFactor))

/-- EditorScene::containsAll: every node item has its scene bounding
rectangle inside the inner test rectangle. -/
def containsAll (items : List SceneItem) (r : Rect) : Bool :=
  items.all fun item => !item.isNode || (testRect r).containsRect item.bounds

/-- One iteration of the grow loop in EditorScene::adjustSceneRect:
`sceneRect().adjusted(-m, -m, m, m)` with `m = m_initialSize`. -/
def growRect (m : ℚ) (r : Rect) : Rect :=
  r.adjusted (-m) (-m) m m

/-- `k` iterations of the grow step. -/
def growIter (m : ℚ) : Nat → Rect → Rect
  | 0, r => r
  | k + 1, r => growIter m k (growRect m r)

/-- The while loop of EditorScene::adjustSceneRect, with explicit fuel:
`some r` is the scene rectangle on normal exit of the loop, `none` means
the fuel ran out before `containsAll` held. -/
def adjustSceneRectLoop (items : List SceneItem) (m : ℚ) : Nat → Rect → Option Rect
  | 0, _ => none
  | fuel + 1, r =>
    if containsAll items r then some r
    else adjustSceneRectLoop items m fuel (growRect m r)

/-! ## EditorScene effect toggling and exports (lines 77-136) -/

/-- The per-item body of EditorScene::enableGraphicsEffects: items without
a graphics effect are untouched, otherwise `setEnabled(enable)`. -/
def setEffect (enable : Bool) (item : SceneItem) : SceneItem :=
  match item.effect with
  | none => item
  | some _ => { item with effect := some enable }

/-- EditorScene::enableGraphicsEffects(enable). -/
def enableGraphicsEffects (enable : Bool) (s : EditorScene) : EditorScene :=
  { s with items := s.items.map (setEffect enable) }

/-- EditorScene::toSvg(filename, title): disables all graphics effects,
renders the scene through QSvgGenerator, then calls
`enableGraphicsEffects(true)`. The rendering itself does not change the
scene, so the scene as rendered is `enableGraphicsEffects false s`.
`writeOk` models whether the underlying file write succeeds; the source
ignores the QPainter begin result, so `writeOk` is never consulted. The
result is the pair (scene state while rendering, scene state on return);
the C++ function returns void. -/
def toSvg (s : EditorScene) (writeOk : Bool) : EditorScene × EditorScene :=
  let rendered := enableGraphicsEffects false s
  (rendered, enableGraphicsEffects true rendered)

/-- An ARGB32 color, as QColor/QImage::Format_ARGB32. -/
structure Color where
  r : Nat
  g : Nat
  b : Nat
  a : Nat
deriving DecidableEq

/-- Qt::transparent: fully transparent black. -/
def transparentColor : Color := ⟨0, 0, 0, 0⟩

/-- A fixed-size bitmap with a pixel lookup function. -/
structure Image where
  width : Nat
  height : Nat
  pixel : Nat → Nat → Color

/-- QImage::fill(color). -/
def Image.fill (w h : Nat) (c : Color) : Image :=
  ⟨w, h, fun _ _ => c⟩

/-- QGraphicsScene::render modelled abstractly: each item is painted in
turn onto the image by an externally supplied painter function (the Qt
painting backend is outside this repository); an empty scene paints
nothing. -/
def renderScene (paint : SceneItem → Image → Image) (s : EditorScene) (img : Image) : Image :=
  s.items.foldl (fun im it => paint it im) img

/-- EditorScene::toImage(size, backgroundColor, transparentBackground):
fills a fresh ARGB32 image with either Qt::transparent or the given
background color, then renders the scene onto it. -/
def toImage (paint : SceneItem → Image → Image) (s : EditorScene) (w h : Nat)
    (backgroundColor : Color) (transparentBackground : Bool) : Image :=
  let image := Image.fill w h (if transparentBackground then transparentColor else backgroundColor)
  renderScene paint s image

/-! ## Graph model and undo/redo history

The Graph (MindMapData) and the undo/redo history live in EditorData,
whose implementation is not among the given sources; only the Mediator
interface (`saveUndoPoint`, `undo`, `redo`, `isUndoable`, `isRedoable` in
src/editor/mediator.hpp) is. The data model follows spec sections 3
and 4.3. -/

/-- A node of the Graph: stable index, position, text, color. -/
structure NodeData where
  index : Nat
  posX : ℚ
  posY : ℚ
  text : String
  color : Color
deriving DecidableEq

/-- An edge of the Graph: ordered pair of node indices plus label and
color. -/
structure EdgeData where
  source : Nat
  target : Nat
  text : String
  color : Color
deriving DecidableEq

/-- The Graph: nodes plus the set of edges. -/
structure Graph where
  nodes : List NodeData
  edges : List EdgeData
deriving DecidableEq

/-- A document: the current Graph together with the undo and redo stacks
of Graph snapshots held by the history component. -/
structure Document where
  graph : Graph
  undoStack : List Graph
  redoStack : List Graph
deriving DecidableEq

/-- Modelled from the spec: `saveUndoPoint()` (declared in
src/editor/mediator.hpp, implemented in EditorData which is not among the
given sources) captures the current Graph state, pushes it onto the undo
stack and truncates any existing redo tail. -/
def saveUndoPoint (d : Document) : Document :=
  { d with undoStack := d.graph :: d.undoStack, redoStack := [] }

/-- Modelled from the spec: `undo()` pops the most recent undo point,
restores it, and pushes the pre-undo Graph onto the redo side; with an
empty undo stack it does nothing. -/
def undo (d : Document) : Document :=
  match d.undoStack with
  | [] => d
  | g :: rest => { graph := g, undoStack := rest, redoStack := d.graph :: d.redoStack }

/-- Modelled from the spec: `redo()` is the mirror operation of `undo()`. -/
def redo (d : Document) : Document :=
  match d.redoStack with
  | [] => d
  | g :: rest => { graph := g, undoStack := d.graph :: d.undoStack, redoStack := rest }

/-- A structural operation mutates the current Graph of the document. -/
def applyOp (f : Graph → Graph) (d : Document) : Document :=
  { d with graph := f d.graph }

/-- Modelled from the spec: `isUndoable()` reports non-emptiness of the
undo stack (src/editor/mediator.hpp line 63). -/
def isUndoable (d : Document) : Bool :=
  !d.undoStack.isEmpty

/-- Modelled from the spec: `isRedoable()` reports non-emptiness of the
redo stack (src/editor/mediator.hpp line 65). -/
def isRedoable (d : Document) : Bool :=
  !d.redoStack.isEmpty

/-! ## Application orchestration (application.cpp)

The observable pieces of state touched by Application::doOpenMindMap and
the color-dialog handlers. StateMachine actions are emitted through
`actionTriggered`; we record the emitted actions in order. -/

/-- The StateMachine actions emitted by the modelled handlers. -/
inductive SmAction where
  | MindMapOpened : SmAction
  | OpeningMindMapFailed : SmAction
  | NodeColorChanged : SmAction
  | EdgeColorChanged : SmAction
  | TextColorChanged : SmAction
deriving DecidableEq

/-- The MainWindow flags touched by doOpenMindMap. -/
structure MainWindowState where
  spinnerVisible : Bool
  undoActionEnabled : Bool
  redoActionEnabled : Bool
  saveActionStatesSetForOpenedMindMap : Bool
deriving DecidableEq

/-- Modelled from the spec: `MainWindow::disableUndoAndRedo()` (MainWindow
is not among the given sources) disables the undo and redo facilities, so
both report unavailable afterwards. -/
def disableUndoAndRedo (w : MainWindowState) : MainWindowState :=
  { w with undoActionEnabled := false, redoActionEnabled := false }

/-- The application state seen by Application::doOpenMindMap: the main
window flags, the current document, the persisted recent-path setting and
the emitted actions. -/
structure AppState where
  mainWindow : MainWindowState
  document : Document
  recentPath : Option String
  emitted : List SmAction
deriving DecidableEq

/-- Modelled from the spec: `ApplicationService::openMindMap(fileName)`
(not among the given sources) fails, returning false, on parse error or
missing file, leaving the previous document untouched; on success it
replaces the entire document wholesale with the freshly loaded Graph.
`parseResult` models the outcome of reading and parsing the file. -/
def openMindMapService (parseResult : Option Graph) (s : AppState) : Bool × AppState :=
  match parseResult with
  | some g => (true, { s with document := ⟨g, [], []⟩ })
  | none => (false, s)

/-- Application::doOpenMindMap (application.cpp lines 290-310): shows the
spinner, calls the service-level open; on success disables undo and redo,
sets the save action states, saves the recent path, hides the spinner and
emits MindMapOpened; on failure hides the spinner and emits
OpeningMindMapFailed. -/
def doOpenMindMap (parseResult : Option Graph) (fileName : String) (s : AppState) : AppState :=
  let s1 := { s with mainWindow := { s.mainWindow with spinnerVisible := true } }
  match openMindMapService parseResult s1 with
  | (true, s2) =>
    let s3 := { s2 with mainWindow := disableUndoAndRedo s2.mainWindow }
    let s4 := { s3 with mainWindow := { s3.mainWindow with saveActionStatesSetForOpenedMindMap := true } }
    let s5 := { s4 with recentPath := some fileName }
    let s6 := { s5 with mainWindow := { s5.mainWindow with spinnerVisible := false } }
    { s6 with emitted := s6.emitted ++ [SmAction.MindMapOpened] }
  | (false, s2) =>
    let s3 := { s2 with mainWindow := { s2.mainWindow with spinnerVisible := false } }
    { s3 with emitted := s3.emitted ++ [SmAction.OpeningMindMapFailed] }

/-! ## Selection groups and the color dialogs -/

/-- The selection groups: the spec distinguishes implicitly created
groups (formed by the now-running action) from user-persistent explicit
selection made beforehand. -/
structure SelectionState where
  implicitNodes : List Nat
  explicitNodes : List Nat
  implicitEdges : List Nat
  explicitEdges : List Nat
deriving DecidableEq

/-- Modelled from the spec: `ApplicationService::clearNodeSelectionGroup`
(not among the given sources); the forced flag distinguishes implicit
from explicit clears: with the flag set only the implicitly created node
group is cleared and user-persistent explicit selection is kept. -/
def clearNodeSelectionGroup (forced : Bool) (sel : SelectionState) : SelectionState :=
  if forced then { sel with implicitNodes := [] }
  else { sel with implicitNodes := [], explicitNodes := [] }

/-- Modelled from the spec: `ApplicationService::clearEdgeSelectionGroup`
(not among the given sources), as for the node group. -/
def clearEdgeSelectionGroup (forced : Bool) (sel : SelectionState) : SelectionState :=
  if forced then { sel with implicitEdges := [] }
  else { sel with implicitEdges := [], explicitEdges := [] }

/-- Application::showNodeColorDialog (application.cpp lines 382-389):
when the dialog is not accepted, clears implicitly selected nodes with
the forced flag; always emits NodeColorChanged. -/
def showNodeColorDialog (accepted : Bool) (sel : SelectionState) (emitted : List SmAction) :
    SelectionState × List SmAction :=
  let sel1 := if accepted then sel else clearNodeSelectionGroup true sel
  (sel1, emitted ++ [SmAction.NodeColorChanged])

/-- Application::showEdgeColorDialog (application.cpp lines 367-374):
when the dialog is not accepted, clears implicitly selected edges with
the forced flag; always emits EdgeColorChanged. -/
def showEdgeColorDialog (accepted : Bool) (sel : SelectionState) (emitted : List SmAction) :
    SelectionState × List SmAction :=
  let sel1 := if accepted then sel else clearEdgeSelectionGroup true sel
  (sel1, emitted ++ [SmAction.EdgeColorChanged])

/-- Application::showTextColorDialog (application.cpp lines 391-398):
when the dialog is not accepted, clears implicitly selected nodes with
the forced flag; always emits TextColorChanged. -/
def showTextColorDialog (accepted : Bool) (sel : SelectionState) (emitted : List SmAction) :
    SelectionState × List SmAction :=
  let sel1 := if accepted then sel else clearNodeSelectionGroup true sel
  (sel1, emitted ++ [SmAction.TextColorChanged])

/-! ## Auxiliary predicates and concrete instances used in the theorems -/

/-- All items that carry a graphics effect have it set to `b`. -/
def allEffects (b : Bool) (items : List SceneItem) : Bool :=
  items.all fun item =>
    match item.effect with
    | none => true
    | some e => e == b

/-- A scene holding node visuals for indices 0 and 1 and a single edge
visual directed from node 1 to node 0. -/
def c2Scene : List SceneItem :=
  [ ⟨SceneItemKind.node 0, ⟨0, 0, 10, 10⟩, none⟩,
    ⟨SceneItemKind.node 1, ⟨20, 0, 10, 10⟩, none⟩,
    ⟨SceneItemKind.edge 1 0, ⟨0, 0, 30, 10⟩, none⟩ ]

/-- A scene holding one item whose graphics effect is disabled. -/
def c6Scene : EditorScene :=
  ⟨⟨0, 0, 100, 100⟩, [⟨SceneItemKind.node 0, ⟨0, 0, 10, 10⟩, some false⟩]⟩

/-- A scene holding one item with an enabled graphics effect, used to
look at the caller-visible outcome of the SVG export. -/
def c7Scene : EditorScene :=
  ⟨⟨0, 0, 200, 200⟩, [⟨SceneItemKind.node 3, ⟨5, 5, 10, 10⟩, some true⟩]⟩

/-- A concrete node visual used to instantiate the scene-rectangle
theorems. -/
def witnessNode : SceneItem :=
  ⟨SceneItemKind.node 0, ⟨0, 0, 1, 1⟩, none⟩

/-- A singleton item list for the scene-rectangle witnesses. -/
def witnessItems : List SceneItem :=
  [witnessNode]

/-- A concrete scene rectangle already containing the witness node inside
its inner test rectangle. -/
def witnessRect : Rect :=
  ⟨-10, -10, 20, 20⟩

/-! # Theorems -/

/-- Helper: mapping `setEffect b` over a list leaves every present
effect set to `b`. -/
lemma allEffects_map_setEffect (b : Bool) (l : List SceneItem) :
    allEffects b (l.map (setEffect b)) = true := by
  induction l with
  | nil => rfl
  | cons it rest ih =>
    simp only [List.map_cons, allEffects, List.all_cons, Bool.and_eq_true] at ih ⊢
    refine ⟨?_, ih⟩
    cases h : it.effect <;> simp [setEffect, h]

/-- Claim C1: saving an undo point, performing one structural operation
and undoing restores the exact pre-operation Graph (node positions, text,
colors, edge set); a subsequent redo reapplies exactly the state the
operation produced, restoring the full post-operation document state. -/
theorem undo_redo_roundtrip : ∀ (d : Document) (f : Graph → Graph),
    (undo (applyOp f (saveUndoPoint d))).graph = d.graph
    ∧ redo (undo (applyOp f (saveUndoPoint d))) = applyOp f (saveUndoPoint d)
    ∧ (redo (undo (applyOp f (saveUndoPoint d)))).graph = f d.graph := by
  intro d f
  exact ⟨rfl, rfl, rfl⟩

/-- Claim C2 counterexample: in a scene holding node visuals for indices
0 and 1 and a single edge directed from node 1 to node 0, the edge is
found by hasEdge(1, 0) but hasEdge(0, 1) is false, so the query is not
symmetric. -/
theorem hasEdge_not_symmetric_cex :
    hasEdge c2Scene 1 0 = true ∧ hasEdge c2Scene 0 1 = false := by
  exact ⟨rfl, rfl⟩

/-- Claim C2 amended: hasEdge(a, b) is directional: it returns true
exactly when the scene contains an edge visual whose source node index is
a and whose target node index is b; an edge from b to a alone does not
make it true. -/
theorem hasEdge_iff_directed_edge : ∀ (items : List SceneItem) (a b : Nat),
    hasEdge items a b = true ↔ ∃ item ∈ items, item.kind = SceneItemKind.edge a b := by
  intro items a b
  simp only [hasEdge, List.any_eq_true]
  constructor
  · rintro ⟨item, hmem, hmatch⟩
    refine ⟨item, hmem, ?_⟩
    cases hk : item.kind with
    | node i => rw [hk] at hmatch; simp at hmatch
    | other => rw [hk] at hmatch; simp at hmatch
    | edge s t =>
      rw [hk] at hmatch
      simp only [Bool.and_eq_true, beq_iff_eq] at hmatch
      rw [hmatch.1, hmatch.2]
  · rintro ⟨item, hmem, hk⟩
    exact ⟨item, hmem, by rw [hk]; simp⟩

/-- Claim C5: a failed open emits OpeningMindMapFailed, leaves the
previous document untouched and does not update the recent-path setting
or the save-action states; those side effects happen only on the success
branch, which updates the recent path, sets the save-action states and
emits MindMapOpened. -/
theorem openMindMap_failure_isolated : ∀ (fileName : String) (s : AppState),
    (doOpenMindMap none fileName s).emitted = s.emitted ++ [SmAction.OpeningMindMapFailed]
    ∧ (doOpenMindMap none fileName s).document = s.document
    ∧ (doOpenMindMap none fileName s).recentPath = s.recentPath
    ∧ (doOpenMindMap none fileName s).mainWindow.saveActionStatesSetForOpenedMindMap
        = s.mainWindow.saveActionStatesSetForOpenedMindMap
    ∧ ∀ g : Graph,
        (doOpenMindMap (some g) fileName s).recentPath = some fileName
        ∧ (doOpenMindMap (some g) fileName s).mainWindow.saveActionStatesSetForOpenedMindMap = true
        ∧ (doOpenMindMap (some g) fileName s).emitted = s.emitted ++ [SmAction.MindMapOpened] := by
  intro fileName s
  exact ⟨rfl, rfl, rfl, rfl, fun g => ⟨rfl, rfl, rfl⟩⟩

/-- Claim C6 counterexample: an item whose graphics effect was disabled
before the SVG export has it enabled after toSvg returns, so effects are
not restored to their prior enabled state. -/
theorem toSvg_not_prior_state_cex :
    c6Scene.items.map SceneItem.effect = [some false]
    ∧ (toSvg c6Scene true).2.items.map SceneItem.effect = [some true]
    ∧ (toSvg c6Scene true).2 ≠ c6Scene := by
  refine ⟨rfl, rfl, fun h => ?_⟩
  have h2 := congrArg (fun sc => sc.items.map SceneItem.effect) h
  simp only [c6Scene, toSvg, enableGraphicsEffects, setEffect, List.map_cons, List.map_nil] at h2
  exact absurd (List.cons.injEq .. ▸ h2).1 (by simp)

/-- Claim C6 amended: toSvg disables every graphics effect for the
rendering pass and afterwards sets every present effect to enabled,
regardless of its prior state; because the write outcome is ignored by
the code, the disable/re-enable sequence runs identically whether or not
the write succeeds. -/
theorem toSvg_effect_toggle : ∀ (s : EditorScene) (writeOk : Bool),
    allEffects false (toSvg s writeOk).1.items = true
    ∧ allEffects true (toSvg s writeOk).2.items = true := by
  intro s writeOk
  exact ⟨allEffects_map_setEffect false s.items, allEffects_map_setEffect true (toSvg s writeOk).1.items⟩

/-- Claim C7 counterexample: for a concrete scene, toSvg on a failing
write produces exactly the same caller-visible outcome as on a
successful write, so the SVG export returns no failure indication (the
C++ function returns void and ignores the QPainter begin result). -/
theorem toSvg_no_failure_result_cex :
    toSvg c7Scene false = toSvg c7Scene true := by
  rfl

/-- Claim C7 amended: the SVG export does not surface write failures: it
returns no success/failure value, and its observable behavior is
identical whether the underlying file write succeeds or fails. -/
theorem toSvg_ignores_write_outcome : ∀ (s : EditorScene) (writeOk : Bool),
    toSvg s writeOk = toSvg s true := by
  intro s writeOk
  rfl

/-- Claim C8: toImage fills the output with full transparency when
transparentBackground is true and with the given color otherwise; on an
empty scene every pixel equals the fill, so a transparent rasterization
has zero opaque pixels and a rasterization over a solid (alpha 255)
background color has no transparent pixels. -/
theorem toImage_background : ∀ (paint : SceneItem → Image → Image) (r : Rect) (w h : Nat)
    (bg : Color) (x y : Nat),
    ((toImage paint ⟨r, []⟩ w h bg true).pixel x y).a = 0
    ∧ (toImage paint ⟨r, []⟩ w h bg false).pixel x y = bg
    ∧ (bg.a = 255 → ((toImage paint ⟨r, []⟩ w h bg false).pixel x y).a = 255) := by
  intro paint r w h bg x y
  exact ⟨rfl, rfl, fun hbg => hbg⟩

/-- Claim C8 witness: the theorem instantiated on a 4 by 4 image, a
trivial painter and opaque red. -/
theorem toImage_background_witness :
    ((toImage (fun _ im => im) ⟨⟨0, 0, 8, 8⟩, []⟩ 4 4 ⟨255, 0, 0, 255⟩ true).pixel 0 0).a = 0
    ∧ (toImage (fun _ im => im) ⟨⟨0, 0, 8, 8⟩, []⟩ 4 4 ⟨255, 0, 0, 255⟩ false).pixel 0 0
        = ⟨255, 0, 0, 255⟩
    ∧ ((toImage (fun _ im => im) ⟨⟨0, 0, 8, 8⟩, []⟩ 4 4 ⟨255, 0, 0, 255⟩ false).pixel 0 0).a
        = 255 := by
  obtain ⟨h1, h2, h3⟩ :=
    toImage_background (fun _ im => im) ⟨0, 0, 8, 8⟩ 4 4 ⟨255, 0, 0, 255⟩ 0 0
  exact ⟨h1, h2, h3 rfl⟩

/-- Claim C9: when a node, edge or text color dialog is accepted the
selection state is untouched; when it is cancelled only the implicitly
created selection group is cleared, through the forced flag, and the
user-persistent explicit selection survives. -/
theorem dialog_cancel_clears_only_implicit : ∀ (sel : SelectionState) (em : List SmAction),
    (showNodeColorDialog true sel em).1 = sel
    ∧ (showEdgeColorDialog true sel em).1 = sel
    ∧ (showTextColorDialog true sel em).1 = sel
    ∧ (showNodeColorDialog false sel em).1.implicitNodes = []
    ∧ (showNodeColorDialog false sel em).1.explicitNodes = sel.explicitNodes
    ∧ (showNodeColorDialog false sel em).1.implicitEdges = sel.implicitEdges
    ∧ (showNodeColorDialog false sel em).1.explicitEdges = sel.explicitEdges
    ∧ (showEdgeColorDialog false sel em).1.implicitEdges = []
    ∧ (showEdgeColorDialog false sel em).1.explicitEdges = sel.explicitEdges
    ∧ (showEdgeColorDialog false sel em).1.implicitNodes = sel.implicitNodes
    ∧ (showEdgeColorDialog false sel em).1.explicitNodes = sel.explicitNodes
    ∧ (showTextColorDialog false sel em).1.implicitNodes = []
    ∧ (showTextColorDialog false sel em).1.explicitNodes = sel.explicitNodes := by
  intro sel em
  exact ⟨rfl, rfl, rfl, rfl, rfl, rfl, rfl, rfl, rfl, rfl, rfl, rfl, rfl⟩

/-- Claim C10: a successful open disables the undo and redo facilities
(the main window undo/redo actions become disabled and both isUndoable
and isRedoable report false on the freshly loaded document), while a
failed open leaves the undo/redo availability unchanged. -/
theorem open_disables_undo_redo : ∀ (g : Graph) (fileName : String) (s : AppState),
    (doOpenMindMap (some g) fileName s).mainWindow.undoActionEnabled = false
    ∧ (doOpenMindMap (some g) fileName s).mainWindow.redoActionEnabled = false
    ∧ isUndoable (doOpenMindMap (some g) fileName s).document = false
    ∧ isRedoable (doOpenMindMap (some g) fileName s).document = false
    ∧ (doOpenMindMap none fileName s).mainWindow.undoActionEnabled
        = s.mainWindow.undoActionEnabled
    ∧ (doOpenMindMap none fileName s).mainWindow.redoActionEnabled
        = s.mainWindow.redoActionEnabled
    ∧ isUndoable (doOpenMindMap none fileName s).document = isUndoable s.document
    ∧ isRedoable (doOpenMindMap none fileName s).document = isRedoable s.document := by
  intro g fileName s
  exact ⟨rfl, rfl, rfl, rfl, rfl, rfl, rfl, rfl⟩

/-- Helper: rectangle containment unfolded to the four edge
inequalities. -/
lemma containsRect_iff (o i : Rect) :
    o.containsRect i = true ↔
      o.x ≤ i.x ∧ o.y ≤ i.y ∧ i.x + i.w ≤ o.x + o.w ∧ i.y + i.h ≤ o.y + o.h := by
  simp [Rect.containsRect, and_assoc]

/-- Helper: the closed form of `k` iterations of the grow step. -/
lemma growIter_spec (m : ℚ) : ∀ (k : ℕ) (r : Rect),
    growIter m k r = ⟨r.x - k * m, r.y - k * m, r.w + 2 * k * m, r.h + 2 * k * m⟩ := by
  intro k
  induction k with
  | zero => intro r; simp [growIter]
  | succ n ih =>
    intro r
    show growIter m n (growRect m r) = _
    rw [ih]
    simp only [growRect, Rect.adjusted]
    rw [Rect.mk.injEq]
    refine ⟨?_, ?_, ?_, ?_⟩ <;> push_cast <;> ring

/-- Helper: dividing out the growth rate. -/
lemma le_half_mul_of_ratio_le (m A q : ℚ) (hm : 0 < m) (h : 2 / m * A ≤ q) :
    A ≤ q * m / 2 := by
  have h2 : 2 / m * A * (m / 2) ≤ q * (m / 2) :=
    mul_le_mul_of_nonneg_right h (by positivity)
  have h3 : 2 / m * A * (m / 2) = A := by
    field_simp
  have h4 : q * (m / 2) = q * m / 2 := by ring
  rw [h3, h4] at h2
  exact h2

/-- Helper: a single bounding rectangle is eventually inside the inner
test rectangle of the grown scene rectangle, and stays there. -/
lemma node_fits_eventually (m : ℚ) (hm : 0 < m) (r b : Rect) :
    ∃ N : ℕ, ∀ k : ℕ, N ≤ k →
      (testRect (growIter m k r)).containsRect b = true := by
  obtain ⟨N, hN⟩ := exists_nat_ge (2 / m *
    (max (max (r.x + r.w / 4 - b.x) (r.y + r.h / 4 - b.y))
      (max (b.x + b.w - r.x - 3 * r.w / 4) (b.y + b.h - r.y - 3 * r.h / 4))))
  refine ⟨N, fun k hk => ?_⟩
  have hkN : (N : ℚ) ≤ (k : ℚ) := by exact_mod_cast hk
  have hA2 := le_half_mul_of_ratio_le m _ _ hm (le_trans hN hkN)
  have h1 : r.x + r.w / 4 - b.x
      ≤ max (max (r.x + r.w / 4 - b.x) (r.y + r.h / 4 - b.y))
          (max (b.x + b.w - r.x - 3 * r.w / 4) (b.y + b.h - r.y - 3 * r.h / 4)) :=
    le_trans (le_max_left _ _) (le_max_left _ _)
  have h2 : r.y + r.h / 4 - b.y
      ≤ max (max (r.x + r.w / 4 - b.x) (r.y + r.h / 4 - b.y))
          (max (b.x + b.w - r.x - 3 * r.w / 4) (b.y + b.h - r.y - 3 * r.h / 4)) :=
    le_trans (le_max_right _ _) (le_max_left _ _)
  have h3 : b.x + b.w - r.x - 3 * r.w / 4
      ≤ max (max (r.x + r.w / 4 - b.x) (r.y + r.h / 4 - b.y))
          (max (b.x + b.w - r.x - 3 * r.w / 4) (b.y + b.h - r.y - 3 * r.h / 4)) :=
    le_trans (le_max_left _ _) (le_max_right _ _)
  have h4 : b.y + b.h - r.y - 3 * r.h / 4
      ≤ max (max (r.x + r.w / 4 - b.x) (r.y + r.h / 4 - b.y))
          (max (b.x + b.w - r.x - 3 * r.w / 4) (b.y + b.h - r.y - 3 * r.h / 4)) :=
    le_trans (le_max_right _ _) (le_max_right _ _)
  rw [growIter_spec, containsRect_iff]
  simp only [testRect, Rect.adjusted, marginFactor]
  refine ⟨by linarith, by linarith, by linarith, by linarith⟩

/-- Helper: with every node eventually fitting and staying put, the whole
scene eventually satisfies containsAll, and stays that way. -/
lemma containsAll_eventually (m : ℚ) (hm : 0 < m) (items : List SceneItem) (r : Rect) :
    ∃ N : ℕ, ∀ k : ℕ, N ≤ k → containsAll items (growIter m k r) = true := by
  induction items with
  | nil => exact ⟨0, fun k _ => rfl⟩
  | cons item rest ih =>
    obtain ⟨N1, hr1⟩ := ih
    obtain ⟨N2, hr2⟩ := node_fits_eventually m hm r item.bounds
    refine ⟨max N1 N2, fun k hk => ?_⟩
    have e1 := hr1 k (le_trans (le_max_left _ _) hk)
    have e2 := hr2 k (le_trans (le_max_right _ _) hk)
    simp only [containsAll, List.all_cons, Bool.and_eq_true] at e1 ⊢
    refine ⟨?_, e1⟩
    cases hn : item.isNode <;> simp [hn, e2]

/-- Helper: once containsAll holds after `k` grow steps, the loop with
`k + 1` units of fuel exits normally. -/
lemma adjustSceneRectLoop_some_of_containsAll (items : List SceneItem) (m : ℚ) :
    ∀ (k : ℕ) (r : Rect), containsAll items (growIter m k r) = true →
      ∃ res : Rect, adjustSceneRectLoop items m (k + 1) r = some res := by
  intro k
  induction k with
  | zero =>
    intro r h
    simp only [growIter] at h
    exact ⟨r, by simp [adjustSceneRectLoop, h]⟩
  | succ n ih =>
    intro r h
    cases hc : containsAll items r with
    | true => exact ⟨r, by simp [adjustSceneRectLoop, hc]⟩
    | false =>
      obtain ⟨res, hres⟩ := ih (growRect m r) h
      refine ⟨res, ?_⟩
      show (if containsAll items r = true then some r
            else adjustSceneRectLoop items m (n + 1) (growRect m r)) = some res
      rw [hc]
      simpa using hres

/-- Helper: the loop only returns a rectangle on which containsAll
holds. -/
lemma containsAll_of_adjustSceneRectLoop (items : List SceneItem) (m : ℚ) :
    ∀ (fuel : ℕ) (r res : Rect), adjustSceneRectLoop items m fuel r = some res →
      containsAll items res = true := by
  intro fuel
  induction fuel with
  | zero =>
    intro r res h
    exact absurd h (by simp [adjustSceneRectLoop])
  | succ n ih =>
    intro r res h
    cases hc : containsAll items r with
    | true =>
      have hsome : some r = some res := by simpa [adjustSceneRectLoop, hc] using h
      injection hsome with hEq
      rw [← hEq]
      exact hc
    | false =>
      have h2 : adjustSceneRectLoop items m n (growRect m r) = some res := by
        simpa [adjustSceneRectLoop, hc] using h
      exact ih _ _ h2

/-- Claim C3: for any finite list of items and any positive growth
increment, the grow loop of adjustSceneRect terminates: after finitely
many grow iterations containsAll holds, and the while loop, run with that
much fuel, exits normally. -/
theorem adjustSceneRect_terminates : ∀ (items : List SceneItem) (m : ℚ) (r : Rect), 0 < m →
    ∃ k : ℕ, containsAll items (growIter m k r) = true
      ∧ ∃ res : Rect, adjustSceneRectLoop items m (k + 1) r = some res := by
  intro items m r hm
  obtain ⟨N, hN⟩ := containsAll_eventually m hm items r
  have h := hN N (le_refl N)
  exact ⟨N, h, adjustSceneRectLoop_some_of_containsAll items m N r h⟩

/-- Claim C3 witness: the theorem instantiated on a singleton node scene
with unit growth increment. -/
theorem adjustSceneRect_terminates_witness :
    (0 : ℚ) < 1
    ∧ ∃ k : ℕ, containsAll witnessItems (growIter 1 k witnessRect) = true
      ∧ ∃ res : Rect, adjustSceneRectLoop witnessItems 1 (k + 1) witnessRect = some res :=
  ⟨by norm_num, adjustSceneRect_terminates witnessItems 1 witnessRect (by norm_num)⟩

/-- Claim C4: whenever the adjustSceneRect loop returns, every node item
has its bounding rectangle inside the inner test rectangle obtained by
insetting the resulting scene rectangle by 25 percent of its width and
height from each edge. -/
theorem adjustSceneRect_post : ∀ (items : List SceneItem) (m : ℚ) (fuel : ℕ) (r res : Rect),
    adjustSceneRectLoop items m fuel r = some res →
    ∀ item ∈ items, item.isNode = true →
      (testRect res).containsRect item.bounds = true := by
  intro items m fuel r res hloop item hmem hnode
  have hall := containsAll_of_adjustSceneRectLoop items m fuel r res hloop
  simp only [containsAll, List.all_eq_true] at hall
  have h2 := hall item hmem
  rw [hnode] at h2
  simpa using h2

/-- Claim C4 witness: the theorem instantiated on a singleton node scene
whose starting rectangle already satisfies containsAll, so one unit of
fuel returns it unchanged. -/
theorem adjustSceneRect_post_witness :
    adjustSceneRectLoop witnessItems 1 1 witnessRect = some witnessRect
    ∧ witnessNode ∈ witnessItems
    ∧ witnessNode.isNode = true
    ∧ (testRect witnessRect).containsRect witnessNode.bounds = true := by
  have hloop : adjustSceneRectLoop witnessItems 1 1 witnessRect = some witnessRect := by
    norm_num [adjustSceneRectLoop, containsAll, testRect, Rect.adjusted, marginFactor,
      Rect.containsRect, SceneItem.isNode, witnessItems, witnessRect, witnessNode]
  have hmem : witnessNode ∈ witnessItems := by simp [witnessItems]
  exact ⟨hloop, hmem, rfl,
    adjustSceneRect_post witnessItems 1 1 witnessRect witnessRect hloop witnessNode hmem rfl⟩
